import Mathlib

/-!
# Verification of the prompt/label builder `preprocess_sample`

Shallow embedding of the `preprocess_sample` function from
`Finetuning_Deepspeed.ipynb`, together with the tokenizer contract it relies
on (fixed-length encoding with `truncation=True` and `padding="max_length"`,
i.e. truncate overflow from the end and right-pad shortfall with the pad
token), and proofs of the testable properties stated by the spec.
-/

namespace Finetuning

/-- The ignore sentinel `-100`: label value excluded from loss computation. -/
def ignoreSentinel : Int := -100

/-- A tokenizer collaborator: a deterministic map from a string to its raw
token-id sequence, plus a designated pad token id.  The fixed-length
truncation/padding policy used by `preprocess_sample` is layered on top of
this in `encodeFixed`. -/
structure Tokenizer where
  encode : String → List Int
  pad_token_id : Int

/-- A raw example: a mapping with string fields `user`, `assistant`, and
optional `reasoning`.  `Option` models presence/absence of each key in the
Python dict. -/
structure RawExample where
  user : Option String
  assistant : Option String
  reasoning : Option String

/-- An encoded example: the triple produced by `preprocess_sample`. -/
structure Encoded where
  input_ids : List Int
  attention_mask : List Nat
  labels : List Int
deriving DecidableEq, Repr

/-- Python `str.strip()`: remove whitespace from both ends of the string.
(Defined over the character list; the built-in `String.trim` is
semantically the same but is not used because its byte-position recursion
does not reduce in the kernel.) -/
def pyStrip (s : String) : String :=
  String.mk (((s.data.dropWhile Char.isWhitespace).reverse.dropWhile
    Char.isWhitespace).reverse)

/-- The call `tokenizer(text, max_length=max_len, padding="max_length",
truncation=True)`: truncate the raw token sequence to `max_len` tokens, then
right-pad with the pad token up to length `max_len`; the attention mask is 1
on real tokens and 0 on padding. -/
def encodeFixed (tok : Tokenizer) (text : String) (max_len : Nat) :
    List Int × List Nat :=
  let ids := (tok.encode text).take max_len
  (ids ++ List.replicate (max_len - ids.length) tok.pad_token_id,
   List.replicate ids.length 1 ++ List.replicate (max_len - ids.length) 0)

/-- The target text:
`full_ans = assistant + "\nReasoning: " + reasoning if reasoning else assistant`. -/
def targetText (assistant reasoning : String) : String :=
  if reasoning ≠ "" then assistant ++ "\nReasoning: " ++ reasoning else assistant

/-- The prompt text: `prompt = "### User:\n" + user + "\n\n### Assistant:\n"`. -/
def promptText (user : String) : String :=
  "### User:\n" ++ user ++ "\n\n### Assistant:\n"

/-- The slice assignment `labels[:prompt_len] = -100`: overwrite every
position with index
`< prompt_len` with the ignore sentinel (Python slice assignment clamps to
the list length, as `mapIdx` does here). -/
def maskPrompt (prompt_len : Nat) (ids : List Int) : List Int :=
  ids.mapIdx (fun i x => if i < prompt_len then ignoreSentinel else x)

/-- The masked assignment `labels[attn == 0] = -100`: overwrite every
position whose attention mask
is 0 with the ignore sentinel. -/
def maskPad (attn : List Nat) (ids : List Int) : List Int :=
  List.zipWith (fun x a => if a = 0 then ignoreSentinel else x) ids attn

/-- The value `prompt_len` as computed by `preprocess_sample`: the sum of the attention
mask of the prompt-only encoding
(`tokenizer(prompt, ...).attention_mask[0].sum().item()`). -/
def promptLen (tokenizer : Tokenizer) (prompt : String) (max_len : Nat) : Nat :=
  (encodeFixed tokenizer prompt max_len).2.sum

/-- The body of `preprocess_sample` once the `user`/`assistant`/`reasoning`
field lookups have succeeded (with `r` the value of
`example.get("reasoning", "")`). -/
def buildEncoded (u a r : String) (tokenizer : Tokenizer) (max_len : Nat) :
    Encoded :=
  let user := pyStrip u
  let assistant := pyStrip a
  let reasoning := pyStrip r
  let full_ans := targetText assistant reasoning
  let prompt := promptText user
  let enc := encodeFixed tokenizer (prompt ++ full_ans) max_len
  let inp_ids := enc.1
  let attn := enc.2
  let prompt_len := promptLen tokenizer prompt max_len
  let labels := maskPad attn (maskPrompt prompt_len inp_ids)
  ⟨inp_ids, attn, labels⟩

/-- Shallow embedding of `preprocess_sample(example, tokenizer, max_len)`.
Accessing a missing `user` or `assistant` key raises `KeyError` in Python;
this is modelled by returning `none`.  `example.get("reasoning", "")`
defaults to the empty string. -/
def preprocess_sample (ex : RawExample) (tokenizer : Tokenizer)
    (max_len : Nat) : Option Encoded :=
  match ex.user, ex.assistant with
  | some u, some a =>
      some (buildEncoded u a (ex.reasoning.getD "") tokenizer max_len)
  | _, _ => none

/-- A concrete character-level tokenizer used to instantiate the theorems:
each character becomes one token id (its code point); pad token id 0. -/
def charTok : Tokenizer :=
  ⟨fun s => s.data.map (fun c => (c.toNat : Int)), 0⟩

/-! ## Basic lemmas about the tokenizer contract and the masking passes -/

theorem encodeFixed_fst_length (tok : Tokenizer) (s : String) (m : Nat) :
    (encodeFixed tok s m).1.length = m := by
  simp only [encodeFixed, List.length_append, List.length_replicate,
    List.length_take]
  omega

theorem encodeFixed_snd_length (tok : Tokenizer) (s : String) (m : Nat) :
    (encodeFixed tok s m).2.length = m := by
  simp only [encodeFixed, List.length_append, List.length_replicate,
    List.length_take]
  omega

theorem promptLen_eq_min (tok : Tokenizer) (s : String) (m : Nat) :
    promptLen tok s m = min m (tok.encode s).length := by
  simp [promptLen, encodeFixed, List.sum_append, List.sum_replicate]

theorem maskPrompt_length (p : Nat) (ids : List Int) :
    (maskPrompt p ids).length = ids.length := by
  simp [maskPrompt]

theorem maskPad_length (attn : List Nat) (ids : List Int) :
    (maskPad attn ids).length = min ids.length attn.length := by
  simp [maskPad]

theorem maskPrompt_getD (p : Nat) (ids : List Int) (i : Nat)
    (hi : i < ids.length) :
    (maskPrompt p ids).getD i 0 =
      if i < p then ignoreSentinel else ids.getD i 0 := by
  have hi' : i < (maskPrompt p ids).length := by
    rw [maskPrompt_length]; exact hi
  rw [List.getD_eq_get _ _ hi', List.getD_eq_get _ _ hi]
  exact List.get_mapIdx ids _ i hi hi'

theorem maskPad_getD (attn : List Nat) (ids : List Int) (i : Nat)
    (h1 : i < ids.length) (h2 : i < attn.length) :
    (maskPad attn ids).getD i 0 =
      if attn.getD i 0 = 0 then ignoreSentinel else ids.getD i 0 := by
  have hlen : i < (maskPad attn ids).length := by
    rw [maskPad_length]; omega
  rw [List.getD_eq_getElem _ _ hlen, List.getD_eq_getElem _ _ h1,
    List.getD_eq_getElem _ _ h2]
  simp [maskPad]

/-- Pointwise description of the two masking passes composed as the code
composes them. -/
theorem masked_labels_getD (p : Nat) (attn : List Nat) (ids : List Int)
    (i : Nat) (h1 : i < ids.length) (h2 : i < attn.length) :
    (maskPad attn (maskPrompt p ids)).getD i 0 =
      if i < p ∨ attn.getD i 0 = 0 then ignoreSentinel
      else ids.getD i 0 := by
  rw [maskPad_getD _ _ _ (by rw [maskPrompt_length]; exact h1) h2,
    maskPrompt_getD _ _ _ h1]
  by_cases ha : attn.getD i 0 = 0 <;> by_cases hp : i < p <;>
    simp [ha, hp]

theorem preprocess_sample_eq_some (ex : RawExample) (tok : Tokenizer)
    (m : Nat) (u a : String) (hu : ex.user = some u)
    (ha : ex.assistant = some a) :
    preprocess_sample ex tok m =
      some (buildEncoded u a (ex.reasoning.getD "") tok m) := by
  simp [preprocess_sample, hu, ha]

theorem preprocess_sample_inv (ex : RawExample) (tok : Tokenizer) (m : Nat)
    (enc : Encoded) (h : preprocess_sample ex tok m = some enc) :
    ∃ u a, ex.user = some u ∧ ex.assistant = some a ∧
      enc = buildEncoded u a (ex.reasoning.getD "") tok m := by
  cases hu : ex.user with
  | none => simp [preprocess_sample, hu] at h
  | some u =>
    cases ha : ex.assistant with
    | none => simp [preprocess_sample, hu, ha] at h
    | some a =>
      refine ⟨u, a, rfl, rfl, ?_⟩
      rw [preprocess_sample_eq_some ex tok m u a hu ha] at h
      exact (Option.some.injEq _ _ ▸ h).symm

theorem buildEncoded_input_ids (u a r : String) (tok : Tokenizer) (m : Nat) :
    (buildEncoded u a r tok m).input_ids =
      (encodeFixed tok
        (promptText (pyStrip u) ++ targetText (pyStrip a) (pyStrip r)) m).1 :=
  rfl

theorem buildEncoded_attention_mask (u a r : String) (tok : Tokenizer)
    (m : Nat) :
    (buildEncoded u a r tok m).attention_mask =
      (encodeFixed tok
        (promptText (pyStrip u) ++ targetText (pyStrip a) (pyStrip r)) m).2 :=
  rfl

theorem buildEncoded_labels (u a r : String) (tok : Tokenizer) (m : Nat) :
    (buildEncoded u a r tok m).labels =
      maskPad (buildEncoded u a r tok m).attention_mask
        (maskPrompt (promptLen tok (promptText (pyStrip u)) m)
          (buildEncoded u a r tok m).input_ids) :=
  rfl

/-! ## Claim theorems -/

/-- C2: For every valid input (raw example with `user` and `assistant`
fields, tokenizer honoring max_length truncation and right-padding), the
three sequences returned by `preprocess_sample` all have length exactly
`max_len`. -/
theorem preprocess_sample_lengths (ex : RawExample) (tok : Tokenizer)
    (m : Nat) (enc : Encoded) (h : preprocess_sample ex tok m = some enc) :
    enc.input_ids.length = m ∧ enc.attention_mask.length = m ∧
      enc.labels.length = m := by
  obtain ⟨u, a, hu, ha, henc⟩ := preprocess_sample_inv ex tok m enc h
  subst henc
  refine ⟨?_, ?_, ?_⟩
  · rw [buildEncoded_input_ids]; exact encodeFixed_fst_length ..
  · rw [buildEncoded_attention_mask]; exact encodeFixed_snd_length ..
  · rw [buildEncoded_labels, maskPad_length, maskPrompt_length,
      buildEncoded_input_ids, buildEncoded_attention_mask,
      encodeFixed_fst_length, encodeFixed_snd_length]
    omega

/-- C1: For every raw example with `user` and `assistant` fields present and
every position `i < max_len`, the labels produced by `preprocess_sample`
carry the ignore sentinel (-100) exactly when `i < prompt_len` or the
attention mask is 0 at `i`, and otherwise equal the input ids at `i`. -/
theorem preprocess_sample_labels_spec (ex : RawExample) (tok : Tokenizer)
    (m : Nat) (enc : Encoded) (h : preprocess_sample ex tok m = some enc)
    (i : Nat) (hi : i < m) :
    enc.labels.getD i 0 =
      if i < promptLen tok (promptText (pyStrip (ex.user.getD ""))) m ∨
          enc.attention_mask.getD i 0 = 0
      then ignoreSentinel else enc.input_ids.getD i 0 := by
  obtain ⟨u, a, hu, ha, henc⟩ := preprocess_sample_inv ex tok m enc h
  subst henc
  rw [hu]
  rw [buildEncoded_labels, buildEncoded_input_ids, buildEncoded_attention_mask]
  rw [masked_labels_getD]
  · simp
  · rw [encodeFixed_fst_length]; exact hi
  · rw [encodeFixed_snd_length]; exact hi

/-- C3: In `preprocess_sample`, if the trimmed reasoning string is empty the
target text is exactly the trimmed assistant string (no separator); if it is
non-empty the target text is assistant ++ "\nReasoning: " ++ reasoning. -/
theorem targetText_spec (a r : String) :
    (pyStrip r = "" → targetText (pyStrip a) (pyStrip r) = pyStrip a) ∧
    (pyStrip r ≠ "" →
      targetText (pyStrip a) (pyStrip r) =
        pyStrip a ++ "\nReasoning: " ++ pyStrip r) := by
  constructor
  · intro h; simp [targetText, h]
  · intro h; simp [targetText, h]

/-- C4: The full training text `preprocess_sample` passes to the tokenizer is
the fixed instruction template around the trimmed user text immediately
followed by the target text: the input ids are the encoding of
`"### User:\n" ++ user ++ "\n\n### Assistant:\n" ++ target`. -/
theorem preprocess_sample_full_text (ex : RawExample) (tok : Tokenizer)
    (m : Nat) (enc : Encoded) (u : String) (hu : ex.user = some u)
    (h : preprocess_sample ex tok m = some enc) :
    promptText (pyStrip u) =
        "### User:\n" ++ pyStrip u ++ "\n\n### Assistant:\n" ∧
      enc.input_ids =
        (encodeFixed tok
          (("### User:\n" ++ pyStrip u ++ "\n\n### Assistant:\n") ++
            targetText (pyStrip (ex.assistant.getD ""))
              (pyStrip (ex.reasoning.getD ""))) m).1 := by
  obtain ⟨u', a, hu', ha, henc⟩ := preprocess_sample_inv ex tok m enc h
  rw [hu] at hu'
  cases hu'
  subst henc
  refine ⟨rfl, ?_⟩
  rw [ha, buildEncoded_input_ids]
  rfl

/-- C5: `prompt_len` is the number of non-padding ("real") tokens of the
prompt-only encoding under the same `max_len`/truncation/padding policy: it
equals the sum of the attention mask of that encoding, which is the number of
prompt tokens clipped to `max_len`. -/
theorem promptLen_spec (tok : Tokenizer) (user : String) (m : Nat) :
    promptLen tok (promptText user) m =
        (encodeFixed tok (promptText user) m).2.sum ∧
      promptLen tok (promptText user) m =
        min m (tok.encode (promptText user)).length :=
  ⟨rfl, promptLen_eq_min ..⟩

/-- C6: If the prompt alone fills or exceeds the token budget
(`prompt_len ≥ max_len`), `preprocess_sample` still returns normally and
every label position carries the ignore sentinel. -/
theorem preprocess_sample_prompt_fills_budget (u a : String)
    (r : Option String) (tok : Tokenizer) (m : Nat)
    (hp : m ≤ promptLen tok (promptText (pyStrip u)) m) :
    ∃ enc, preprocess_sample ⟨some u, some a, r⟩ tok m = some enc ∧
      ∀ i, enc.labels.getD i ignoreSentinel = ignoreSentinel := by
  refine ⟨buildEncoded u a (r.getD "") tok m,
    preprocess_sample_eq_some _ tok m u a rfl rfl, ?_⟩
  intro i
  by_cases hi : i < m
  · have h1 : i < (buildEncoded u a (r.getD "") tok m).input_ids.length := by
      rw [buildEncoded_input_ids, encodeFixed_fst_length]; exact hi
    have h2 :
        i < (buildEncoded u a (r.getD "") tok m).attention_mask.length := by
      rw [buildEncoded_attention_mask, encodeFixed_snd_length]; exact hi
    have hlab : i < (buildEncoded u a (r.getD "") tok m).labels.length := by
      rw [buildEncoded_labels, maskPad_length, maskPrompt_length]
      omega
    have hmask := masked_labels_getD
      (promptLen tok (promptText (pyStrip u)) m)
      (buildEncoded u a (r.getD "") tok m).attention_mask
      (buildEncoded u a (r.getD "") tok m).input_ids i h1 h2
    rw [← buildEncoded_labels] at hmask
    rw [List.getD_eq_getElem _ _ hlab] at hmask ⊢
    rw [hmask]
    have hpl : i < promptLen tok (promptText (pyStrip u)) m := by omega
    simp [hpl]
  · have hlab : (buildEncoded u a (r.getD "") tok m).labels.length ≤ i := by
      rw [buildEncoded_labels, maskPad_length, maskPrompt_length,
        buildEncoded_input_ids, buildEncoded_attention_mask,
        encodeFixed_fst_length, encodeFixed_snd_length]
      omega
    rw [List.getD_eq_default _ _ hlab]

/-- Single-pass masking as the spec describes it: a position is ignored iff
it belongs to the prompt prefix OR it is padding.  (Spec-side definition for
the refinement claim C8; the code-side composition is
`maskPad attn (maskPrompt p ids)`.) -/
def maskSingle (p : Nat) (attn : List Nat) (ids : List Int) : List Int :=
  (List.zipWith Prod.mk ids attn).mapIdx
    (fun i xa => if i < p ∨ xa.2 = 0 then ignoreSentinel else xa.1)

theorem maskSingle_length (p : Nat) (attn : List Nat) (ids : List Int) :
    (maskSingle p attn ids).length = min ids.length attn.length := by
  simp [maskSingle]

theorem maskSingle_getD (p : Nat) (attn : List Nat) (ids : List Int)
    (i : Nat) (h1 : i < ids.length) (h2 : i < attn.length) :
    (maskSingle p attn ids).getD i 0 =
      if i < p ∨ attn.getD i 0 = 0 then ignoreSentinel
      else ids.getD i 0 := by
  have hz : i < (List.zipWith Prod.mk ids attn).length := by
    rw [List.length_zipWith]; omega
  have hi' : i < (maskSingle p attn ids).length := by
    rw [maskSingle_length]; omega
  have hzz : (List.zipWith Prod.mk ids attn).get ⟨i, hz⟩ =
      (ids.get ⟨i, h1⟩, attn.get ⟨i, h2⟩) := by
    simp [List.get_eq_getElem, List.getElem_zipWith]
  have hmap := List.get_mapIdx (List.zipWith Prod.mk ids attn)
    (fun i xa => if i < p ∨ xa.2 = 0 then ignoreSentinel else xa.1) i hz
    (by simpa [maskSingle] using hi')
  rw [List.getD_eq_get _ _ hi', List.getD_eq_get _ _ h1,
    List.getD_eq_get _ _ h2]
  simp only [maskSingle]
  rw [hmap, hzz]

/-- C7: a raw example missing `user` or missing `assistant` makes
`preprocess_sample` fail (the fields are accessed unconditionally), a missing
`reasoning` field does not, and with both required fields present no failure
occurs. -/
theorem preprocess_sample_missing_fields (tok : Tokenizer) (m : Nat) :
    (∀ ex : RawExample, ex.user = none → preprocess_sample ex tok m = none) ∧
    (∀ ex : RawExample,
      ex.assistant = none → preprocess_sample ex tok m = none) ∧
    (∀ u a : String, ∀ r : Option String,
      (preprocess_sample ⟨some u, some a, r⟩ tok m).isSome = true) := by
  refine ⟨?_, ?_, ?_⟩
  · intro ex hu; simp [preprocess_sample, hu]
  · intro ex ha
    cases hu : ex.user <;> simp [preprocess_sample, hu, ha]
  · intro u a r
    simp [preprocess_sample]

/-- C8: applying the prompt mask and then the padding mask (as the code does)
yields exactly the single-pass mask that ignores a position iff it is in the
prompt prefix or is padding, and the same holds with the two masks applied in
the opposite order. -/
theorem mask_order_equivalence (p : Nat) (attn : List Nat) (ids : List Int) :
    maskPad attn (maskPrompt p ids) = maskSingle p attn ids ∧
    maskPad attn (maskPrompt p ids) = maskPrompt p (maskPad attn ids) := by
  have hlen1 : (maskPad attn (maskPrompt p ids)).length =
      min ids.length attn.length := by
    rw [maskPad_length, maskPrompt_length]
  constructor
  · apply List.ext_getElem
    · rw [hlen1, maskSingle_length]
    · intro i hi1 hi2
      have h1 : i < ids.length := by rw [hlen1] at hi1; omega
      have h2 : i < attn.length := by rw [hlen1] at hi1; omega
      rw [← List.getD_eq_getElem _ 0 hi1, ← List.getD_eq_getElem _ 0 hi2,
        masked_labels_getD p attn ids i h1 h2,
        maskSingle_getD p attn ids i h1 h2]
  · apply List.ext_getElem
    · rw [hlen1, maskPrompt_length, maskPad_length]
    · intro i hi1 hi2
      have h1 : i < ids.length := by rw [hlen1] at hi1; omega
      have h2 : i < attn.length := by rw [hlen1] at hi1; omega
      have h3 : i < (maskPad attn ids).length := by
        rw [maskPad_length]; omega
      rw [← List.getD_eq_getElem _ 0 hi1, ← List.getD_eq_getElem _ 0 hi2,
        masked_labels_getD p attn ids i h1 h2,
        maskPrompt_getD p _ i h3, maskPad_getD attn ids i h1 h2]
      by_cases ha : attn.getD i 0 = 0 <;> by_cases hp : i < p <;>
        simp [ha, hp]

/-- C9: `preprocess_sample` is deterministic — two calls with identical raw
example, identical `max_len`, and an identical (deterministic) tokenizer
produce identical output triples. -/
theorem preprocess_sample_deterministic (ex₁ ex₂ : RawExample)
    (tok₁ tok₂ : Tokenizer) (m₁ m₂ : Nat) (hex : ex₁ = ex₂)
    (htok : tok₁ = tok₂) (hm : m₁ = m₂) :
    preprocess_sample ex₁ tok₁ m₁ = preprocess_sample ex₂ tok₂ m₂ := by
  subst hex htok hm
  rfl

/-- C10: `prompt_len` never exceeds `max_len` (so the prompt-mask slice is
always in bounds of the labels sequence), and the `prompt_len ≥ max_len` edge
case can only occur with equality. -/
theorem promptLen_le_max_len (tok : Tokenizer) (s : String) (m : Nat) :
    promptLen tok s m ≤ m ∧
    (m ≤ promptLen tok s m → promptLen tok s m = m) ∧
    (∀ ex enc, preprocess_sample ex tok m = some enc →
      promptLen tok s m ≤ enc.labels.length) := by
  have hle : promptLen tok s m ≤ m := by
    rw [promptLen_eq_min]; omega
  refine ⟨hle, fun h => le_antisymm hle h, fun ex enc h => ?_⟩
  have := (preprocess_sample_lengths ex tok m enc h).2.2
  omega

/-! ## Witnesses: the claim theorems instantiated at concrete inputs -/

theorem preprocess_sample_lengths_witness :
    (buildEncoded "2+2?" "4" "why" charTok 8).input_ids.length = 8 ∧
    (buildEncoded "2+2?" "4" "why" charTok 8).attention_mask.length = 8 ∧
    (buildEncoded "2+2?" "4" "why" charTok 8).labels.length = 8 :=
  preprocess_sample_lengths ⟨some "2+2?", some "4", some "why"⟩ charTok 8
    (buildEncoded "2+2?" "4" "why" charTok 8) rfl

theorem preprocess_sample_labels_spec_witness :
    preprocess_sample ⟨some "2+2?", some "4", none⟩ charTok 40 =
        some (buildEncoded "2+2?" "4" "" charTok 40) ∧
    (buildEncoded "2+2?" "4" "" charTok 40).labels.getD 31 0 =
      if 31 < promptLen charTok (promptText (pyStrip "2+2?")) 40 ∨
          (buildEncoded "2+2?" "4" "" charTok 40).attention_mask.getD 31 0 = 0
      then ignoreSentinel
      else (buildEncoded "2+2?" "4" "" charTok 40).input_ids.getD 31 0 :=
  ⟨rfl, preprocess_sample_labels_spec ⟨some "2+2?", some "4", none⟩ charTok 40
    (buildEncoded "2+2?" "4" "" charTok 40) rfl 31 (by decide)⟩

theorem targetText_spec_witness :
    targetText (pyStrip "4") (pyStrip " ") = pyStrip "4" ∧
    targetText (pyStrip "4") (pyStrip "because") =
      pyStrip "4" ++ "\nReasoning: " ++ pyStrip "because" :=
  ⟨(targetText_spec "4" " ").1 (by decide),
   (targetText_spec "4" "because").2 (by decide)⟩

theorem preprocess_sample_full_text_witness :
    promptText (pyStrip "2+2?") =
        "### User:\n" ++ pyStrip "2+2?" ++ "\n\n### Assistant:\n" ∧
    (buildEncoded "2+2?" "4" "" charTok 8).input_ids =
      (encodeFixed charTok
        (("### User:\n" ++ pyStrip "2+2?" ++ "\n\n### Assistant:\n") ++
          targetText (pyStrip "4") (pyStrip "")) 8).1 :=
  preprocess_sample_full_text ⟨some "2+2?", some "4", none⟩ charTok 8
    (buildEncoded "2+2?" "4" "" charTok 8) "2+2?" rfl rfl

theorem preprocess_sample_prompt_fills_budget_witness :
    4 ≤ promptLen charTok (promptText (pyStrip "x")) 4 ∧
    ∃ enc, preprocess_sample ⟨some "x", some "y", none⟩ charTok 4 = some enc ∧
      ∀ i, enc.labels.getD i ignoreSentinel = ignoreSentinel :=
  ⟨by decide,
   preprocess_sample_prompt_fills_budget "x" "y" none charTok 4 (by decide)⟩

theorem preprocess_sample_missing_fields_witness :
    preprocess_sample ⟨none, some "4", none⟩ charTok 4 = none ∧
    preprocess_sample ⟨some "q", none, none⟩ charTok 4 = none ∧
    (preprocess_sample ⟨some "q", some "4", none⟩ charTok 4).isSome = true :=
  ⟨(preprocess_sample_missing_fields charTok 4).1 ⟨none, some "4", none⟩ rfl,
   (preprocess_sample_missing_fields charTok 4).2.1 ⟨some "q", none, none⟩ rfl,
   (preprocess_sample_missing_fields charTok 4).2.2 "q" "4" none⟩

theorem preprocess_sample_deterministic_witness :
    preprocess_sample ⟨some "q", some "4", none⟩ charTok 8 =
      preprocess_sample ⟨some "q", some "4", none⟩ charTok 8 :=
  preprocess_sample_deterministic ⟨some "q", some "4", none⟩
    ⟨some "q", some "4", none⟩ charTok charTok 8 8 rfl rfl rfl

theorem promptLen_le_max_len_witness :
    promptLen charTok (promptText (pyStrip "x")) 4 = 4 ∧
    promptLen charTok "hi" 8 ≤ 8 ∧
    promptLen charTok "hi" 8 ≤
      (buildEncoded "q" "4" "" charTok 8).labels.length :=
  ⟨(promptLen_le_max_len charTok (promptText (pyStrip "x")) 4).2.1 (by decide),
   (promptLen_le_max_len charTok "hi" 8).1,
   (promptLen_le_max_len charTok "hi" 8).2.2 ⟨some "q", some "4", none⟩
     (buildEncoded "q" "4" "" charTok 8) rfl⟩

end Finetuning
